import Mathlib

/-!
Shallow embedding of `SambaAdapter.generate_content_async` from
`src/A2Agent/multi_tool_agent/agent.py` (the model-adapter shim, the
"ChatAdapter" of the specification).

The Python coroutine converts an ADK `LlmRequest` into a SambaNova
chat-completion payload, performs one vendor call, and converts the
vendor response back into a single ADK `LlmResponse`.  The embedding
is pure: the vendor call is a parameter `vendor : SNPayload → Except ε
Completion`, the standard-library JSON decoder `json.loads` is a
parameter `parse : String → Option ArgsMap` (success means the string
decoded to a mapping usable as `FunctionCall.args`), and the outcome
record tracks the list of payloads handed to the vendor and the log
entries emitted, so that "no vendor call", "exactly one vendor call"
and "the failure is logged" are expressible.
-/

namespace Adapter

/-- A JSON-like value, used for tool parameter schemas and decoded
tool-call arguments (`json.loads` output). -/
inductive JsonVal where
  | null
  | bool (b : Bool)
  | num (n : Int)
  | str (s : String)
  | arr (elems : List JsonVal)
  | obj (fields : List (String × JsonVal))

/-- A decoded tool-call argument mapping (a Python `dict`). -/
abbrev ArgsMap := List (String × JsonVal)

/-- `types.FunctionCall(name=..., args=...)`: args is the decoded mapping. -/
structure FunctionCall where
  name : String
  args : ArgsMap

/-- `types.Part`: an ADK content part, carrying optional text and an
optional function call (the two fields this adapter reads or writes). -/
structure Part where
  text : Option String := none
  function_call : Option FunctionCall := none

/-- `types.Part.from_text(text=t)` (and its fallback `types.Part(text=t)`,
which builds the same part). -/
def Part.fromText (t : String) : Part := { text := some t }

/-- `types.Part(function_call=types.FunctionCall(name=n, args=a))`. -/
def Part.fromFunctionCall (n : String) (a : ArgsMap) : Part :=
  { function_call := some (FunctionCall.mk n a) }

/-- `types.Content`: a role plus an ordered list of parts. -/
structure Content where
  role : String
  parts : List Part

/-- One declared function of a tool: `name`, `description`, and the
JSON-schema `parameters` (the Python `Schema.to_dict()` result is
modelled as the JSON value itself). -/
structure FunctionDeclaration where
  name : String
  description : String
  parameters : JsonVal

/-- An ADK tool: a list of function declarations. -/
structure Tool where
  function_declarations : List FunctionDeclaration

/-- `LlmRequest`: the contents (turn sequence) and optional tools.
A Python value of `None` for either field behaves like the empty list
under the truthiness tests the source performs, so both are lists. -/
structure LlmRequest where
  contents : List Content
  tools : List Tool

/-- One flattened vendor message: `{"role": c.role, "content": content_text}`. -/
structure ChatMessage where
  role : String
  content : String

/-- The `function` member of a converted tool entry. -/
structure ApiFunctionSpec where
  name : String
  description : String
  parameters : JsonVal

/-- One entry of `api_tools`:
`{"type": "function", "function": {...}}`. -/
structure ApiTool where
  type : String
  function : ApiFunctionSpec

/-- The keyword arguments of `self._client.chat.completions.create`:
`tools` and `tool_choice` are only passed on the tool-bearing branch. -/
structure SNPayload where
  model : String
  messages : List ChatMessage
  tools : Option (List ApiTool)
  tool_choice : Option String

/-- Vendor response: the `function` object of one tool call.
`none` in a field models an absent attribute (the source probes with
`getattr(function, "name", "")` and `getattr(function, "arguments", "{}")`). -/
structure SNFunction where
  name : Option String
  arguments : Option String

/-- Vendor response: one tool-call entry; `function` may be absent
(`getattr(tc, "function", None)`). -/
structure SNToolCall where
  function : Option SNFunction

/-- Vendor response: a choice's message.  `content` may be absent or
`None` (`getattr(msg, "content", None)`); `tool_calls = none` models
both a missing attribute (`hasattr` fails) and a `None` value
(`getattr(msg, "tool_calls", []) or []`), which produce the same
behaviour: no function-call parts. -/
structure SNMessage where
  content : Option String
  tool_calls : Option (List SNToolCall)

/-- Vendor response: one choice; `message` may be absent or `None`
(`getattr(choice, "message", None)` followed by `if not msg`). -/
structure SNChoice where
  message : Option SNMessage

/-- Vendor response object; `choices = none` models an absent or `None`
attribute (`getattr(completion, "choices", []) or []`). -/
structure Completion where
  choices : Option (List SNChoice)

/-- Errors raised while building the payload, before any vendor call:
`ValueError("LlmRequest must contain contents")` on empty contents, and
the `IndexError` from `tool.function_declarations[0]` on a tool with no
declared function. -/
inductive BuildError where
  | invalidRequest
  | indexError

/-- Everything `generate_content_async` can raise: a build error, or a
vendor-call failure re-raised unmodified (`raise` after `LOG.exception`). -/
inductive GenError (ε : Type) where
  | build (e : BuildError)
  | vendor (e : ε)

/-- The log statements the adapter can emit: `LOG.exception("SambaNova
call failed")` and `LOG.error(f"Error parsing tool call: ...")` (the
latter records the argument string that failed to decode). -/
inductive LogEntry where
  | vendorCallFailed
  | toolCallParseError (detail : String)

/-- `LlmResponse(content=..., partial=False)`: `partialFlag` embeds the
source's `partial` keyword argument. -/
structure LlmResponse where
  content : Content
  partialFlag : Bool

/-- Observable outcome of one `generate_content_async` invocation:
the payloads handed to the vendor (in order), the log entries emitted,
the raised error or yielded responses, and the values of `llm_request`
and `self._model` after the body has run (no statement of the source
assigns to either, so the embedding returns them as they stand). -/
structure GenOutcome (ε : Type) where
  calls : List SNPayload
  log : List LogEntry
  result : Except (GenError ε) (List LlmResponse)
  finalRequest : LlmRequest
  finalModel : String

/-- Line 65: `content_text = "".join(part.text for part in c.parts if part.text)` —
concatenate, in order and without separator, the text of every part whose
`text` is truthy (present and non-empty). -/
def contentText (parts : List Part) : String :=
  String.join (parts.filterMap fun p =>
    match p.text with
    | some t => if t = "" then none else some t
    | none => none)

/-- Lines 63–66: the `messages` list, one entry per turn. -/
def buildMessages (contents : List Content) : List ChatMessage :=
  contents.map fun c => ChatMessage.mk c.role (contentText c.parts)

/-- Lines 72–81: convert one tool by reading `tool.function_declarations[0]`;
`none` is the `IndexError` raised when the list is empty. -/
def convertTool (tool : Tool) : Option ApiTool :=
  match tool.function_declarations with
  | [] => none
  | d :: _ => some (ApiTool.mk "function" (ApiFunctionSpec.mk d.name d.description d.parameters))

/-- Lines 69–81: the `api_tools` list, built by the `for tool in
llm_request.tools` loop; the loop raises as soon as one tool has no
declaration, so a single failure aborts the whole conversion. -/
def buildApiTools : List Tool → Option (List ApiTool)
  | [] => some []
  | t :: ts =>
    match convertTool t with
    | none => none
    | some a =>
      match buildApiTools ts with
      | none => none
      | some rest => some (a :: rest)

/-- Lines 59–98: validate the request, flatten messages, convert tools,
and assemble the keyword arguments of the vendor call (`tools` and
`tool_choice="auto"` are passed exactly when `api_tools` is non-empty). -/
def buildPayload (model : String) (req : LlmRequest) : Except BuildError SNPayload :=
  match req.contents with
  | [] => Except.error BuildError.invalidRequest
  | _ :: _ =>
    match buildApiTools req.tools with
    | none => Except.error BuildError.indexError
    | some api_tools =>
      match api_tools with
      | [] => Except.ok (SNPayload.mk model (buildMessages req.contents) none none)
      | _ :: _ =>
        Except.ok (SNPayload.mk model (buildMessages req.contents) (some api_tools) (some "auto"))

/-- Lines 124–140: process one tool-call entry inside the `try`.
If `function` is falsy nothing is appended; otherwise the name defaults
to `""`, the argument string defaults to `"{}"`, and a `json.loads`
failure is caught: the entry is logged and skipped (`continue`). -/
def toolCallResult (parse : String → Option ArgsMap) (tc : SNToolCall) :
    Option Part × List LogEntry :=
  match tc.function with
  | none => (none, [])
  | some f =>
    let fn_name := f.name.getD ""
    let fn_args_str := f.arguments.getD "\x7b\x7d"
    match parse fn_args_str with
    | some fn_args => (some (Part.fromFunctionCall fn_name fn_args), [])
    | none => (none, [LogEntry.toolCallParseError fn_args_str])

/-- Lines 123–140: the loop over `tool_calls`, collecting appended parts
and emitted log entries in order. -/
def toolCallsParts (parse : String → Option ArgsMap) :
    List SNToolCall → List Part × List LogEntry
  | [] => ([], [])
  | tc :: tcs =>
    let r := toolCallResult parse tc
    let rest := toolCallsParts parse tcs
    (r.1.toList ++ rest.1, r.2 ++ rest.2)

/-- Lines 108–140: parts contributed by one choice.  A falsy `message`
is skipped; truthy `content` contributes one text part, then the
tool-call entries contribute their parts. -/
def choiceParts (parse : String → Option ArgsMap) (ch : SNChoice) :
    List Part × List LogEntry :=
  match ch.message with
  | none => ([], [])
  | some msg =>
    let textParts : List Part :=
      match msg.content with
      | some t => if t = "" then [] else [Part.fromText t]
      | none => []
    let tcr := toolCallsParts parse (msg.tool_calls.getD [])
    (textParts ++ tcr.1, tcr.2)

/-- Lines 107–141: the `parts` list aggregated over all choices, with
the log entries emitted along the way. -/
def completionParts (parse : String → Option ArgsMap) (completion : Completion) :
    List Part × List LogEntry :=
  let rs := (completion.choices.getD []).map (choiceParts parse)
  ((rs.map Prod.fst).flatten, (rs.map Prod.snd).flatten)

/-- Lines 52–146: the whole coroutine.  `vendor` is
`self._client.chat.completions.create` (run via `asyncio.to_thread`;
called at exactly one site), `parse` is `json.loads`.  On success the
coroutine yields exactly one `LlmResponse` with role `"model"` and
`partial=False`. -/
def generate_content_async {ε : Type} (model : String)
    (vendor : SNPayload → Except ε Completion)
    (parse : String → Option ArgsMap) (req : LlmRequest) : GenOutcome ε :=
  match buildPayload model req with
  | Except.error e =>
    GenOutcome.mk [] [] (Except.error (GenError.build e)) req model
  | Except.ok payload =>
    match vendor payload with
    | Except.error e =>
      GenOutcome.mk [payload] [LogEntry.vendorCallFailed]
        (Except.error (GenError.vendor e)) req model
    | Except.ok completion =>
      let pr := completionParts parse completion
      GenOutcome.mk [payload] pr.2
        (Except.ok [LlmResponse.mk (Content.mk "model" pr.1) false]) req model

/-- Spec-form concatenation for claim C1: the in-order, separator-free
concatenation of a turn's text fragments (an absent or empty fragment
contributes the empty string). -/
def turnText : List Part → String
  | [] => ""
  | p :: ps => p.text.getD "" ++ turnText ps

/-! ### Helper lemmas -/

theorem string_join_cons (a : String) (l : List String) :
    String.join (a :: l) = a ++ String.join l := by
  apply String.ext
  simp

theorem contentText_cons (p : Part) (ps : List Part) :
    contentText (p :: ps) =
      (match p.text with
       | some t => if t = "" then "" else t
       | none => "") ++ contentText ps := by
  unfold contentText
  cases h : p.text with
  | none => simp [List.filterMap_cons, h]
  | some t =>
    by_cases ht : t = ""
    · simp [List.filterMap_cons, h, ht]
    · simp [List.filterMap_cons, h, ht, string_join_cons]

/-- The source's truthiness-filtered concatenation agrees with the
spec-form concatenation of all fragments. -/
theorem contentText_eq_turnText (ps : List Part) : contentText ps = turnText ps := by
  induction ps with
  | nil => rfl
  | cons p ps ih =>
    rw [contentText_cons, turnText, ih]
    cases h : p.text with
    | none => simp
    | some t =>
      by_cases ht : t = ""
      · simp [ht]
      · simp [ht]

theorem turnText_of_all_empty (ps : List Part)
    (h : ∀ p ∈ ps, (∀ t, p.text = some t → t = "")) : turnText ps = "" := by
  induction ps with
  | nil => rfl
  | cons p ps ih =>
    rw [turnText]
    have hp := h p (List.mem_cons_self p ps)
    have hrest : turnText ps = "" := ih fun q hq => h q (List.mem_cons_of_mem p hq)
    cases ht : p.text with
    | none => simp [ht, hrest]
    | some t => simp [ht, hrest, hp t ht]

theorem toolCallsParts_append (parse : String → Option ArgsMap)
    (l1 l2 : List SNToolCall) :
    toolCallsParts parse (l1 ++ l2) =
      ((toolCallsParts parse l1).1 ++ (toolCallsParts parse l2).1,
       (toolCallsParts parse l1).2 ++ (toolCallsParts parse l2).2) := by
  induction l1 with
  | nil => simp [toolCallsParts]
  | cons tc tcs ih => simp [toolCallsParts, ih]

theorem toolCallsParts_text_none (parse : String → Option ArgsMap)
    (tcs : List SNToolCall) :
    ∀ p ∈ (toolCallsParts parse tcs).1, p.text = none := by
  induction tcs with
  | nil => intro p hp; simp [toolCallsParts] at hp
  | cons tc tcs ih =>
    intro p hp
    simp only [toolCallsParts, List.mem_append] at hp
    rcases hp with hp | hp
    · unfold toolCallResult at hp
      cases hf : tc.function with
      | none => simp [hf] at hp
      | some f =>
        cases hparse : parse (f.arguments.getD "\x7b\x7d") with
        | none => simp [hf, hparse] at hp
        | some args =>
          simp [hf, hparse] at hp
          simp [hp, Part.fromFunctionCall]
    · exact ih p hp

theorem buildApiTools_of_decls (tools : List Tool)
    (h : ∀ t ∈ tools, t.function_declarations ≠ []) :
    ∃ ats, buildApiTools tools = some ats ∧ ats.length = tools.length ∧
      ∀ i (hi : i < tools.length), ∃ d ds,
        (tools.get ⟨i, hi⟩).function_declarations = d :: ds ∧
        ats[i]? = some (ApiTool.mk "function"
          (ApiFunctionSpec.mk d.name d.description d.parameters)) := by
  induction tools with
  | nil => exact ⟨[], rfl, rfl, fun i hi => absurd hi (Nat.not_lt_zero i)⟩
  | cons t ts ih =>
    have ht := h t (List.mem_cons_self t ts)
    obtain ⟨ats, hats, hlen, hget⟩ := ih fun u hu => h u (List.mem_cons_of_mem t hu)
    cases hd : t.function_declarations with
    | nil => exact absurd hd ht
    | cons d ds =>
      refine ⟨ApiTool.mk "function" (ApiFunctionSpec.mk d.name d.description d.parameters) :: ats,
        ?_, by simp [hlen], ?_⟩
      · simp [buildApiTools, convertTool, hd, hats]
      · intro i hi
        cases i with
        | zero => exact ⟨d, ds, hd, by simp⟩
        | succ j =>
          obtain ⟨d2, ds2, hd2, hat2⟩ := hget j (Nat.lt_of_succ_lt_succ hi)
          exact ⟨d2, ds2, hd2, by simpa using hat2⟩

/-- Payload construction succeeds on a valid request, and the payload's
fields are as the source assembles them. -/
theorem buildPayload_ok (model : String) (req : LlmRequest)
    (h1 : req.contents ≠ [])
    (h2 : ∀ t ∈ req.tools, t.function_declarations ≠ []) :
    ∃ payload, buildPayload model req = Except.ok payload ∧
      payload.model = model ∧
      payload.messages = buildMessages req.contents ∧
      (req.tools = [] → payload.tools = none ∧ payload.tool_choice = none) ∧
      (req.tools ≠ [] → payload.tool_choice = some "auto" ∧
        ∃ ats, payload.tools = some ats ∧ ats.length = req.tools.length ∧
          ∀ i (hi : i < req.tools.length), ∃ d ds,
            (req.tools.get ⟨i, hi⟩).function_declarations = d :: ds ∧
            ats[i]? = some (ApiTool.mk "function"
              (ApiFunctionSpec.mk d.name d.description d.parameters))) := by
  obtain ⟨ats, hats, hlen, hget⟩ := buildApiTools_of_decls req.tools h2
  have hc : ∃ c cs, req.contents = c :: cs := by
    cases hx : req.contents with
    | nil => exact absurd hx h1
    | cons c cs => exact ⟨c, cs, rfl⟩
  obtain ⟨c, cs, hc⟩ := hc
  cases hatsnil : ats with
  | nil =>
    rw [hatsnil] at hats hlen
    have htools : req.tools = [] := List.length_eq_zero.mp hlen.symm
    refine ⟨SNPayload.mk model (buildMessages req.contents) none none, ?_, rfl, rfl,
      fun _ => ⟨rfl, rfl⟩, fun hne => absurd htools hne⟩
    simp only [buildPayload, hc, hats]
  | cons a rest =>
    rw [hatsnil] at hats hlen hget
    have htools : req.tools ≠ [] := by
      intro hnil
      rw [hnil] at hlen
      simp at hlen
    refine ⟨SNPayload.mk model (buildMessages req.contents) (some (a :: rest)) (some "auto"), ?_,
      rfl, rfl, fun heq => absurd heq htools,
      fun _ => ⟨rfl, ⟨a :: rest, rfl, hlen, hget⟩⟩⟩
    simp only [buildPayload, hc, hats]

/-- Reduction of the coroutine on a successful vendor call. -/
theorem generate_ok {ε : Type} (model : String)
    (vendor : SNPayload → Except ε Completion) (parse : String → Option ArgsMap)
    (req : LlmRequest) (payload : SNPayload) (completion : Completion)
    (hp : buildPayload model req = Except.ok payload)
    (hv : vendor payload = Except.ok completion) :
    generate_content_async model vendor parse req =
      GenOutcome.mk [payload] (completionParts parse completion).2
        (Except.ok [LlmResponse.mk
          (Content.mk "model" (completionParts parse completion).1) false]) req model := by
  simp [generate_content_async, hp, hv]

/-- Reduction of the coroutine on a failing vendor call. -/
theorem generate_vendor_err {ε : Type} (model : String)
    (vendor : SNPayload → Except ε Completion) (parse : String → Option ArgsMap)
    (req : LlmRequest) (payload : SNPayload) (e : ε)
    (hp : buildPayload model req = Except.ok payload)
    (hv : vendor payload = Except.error e) :
    generate_content_async model vendor parse req =
      GenOutcome.mk [payload] [LogEntry.vendorCallFailed]
        (Except.error (GenError.vendor e)) req model := by
  simp [generate_content_async, hp, hv]

/-- Whatever payload `buildPayload` produces carries exactly the
flattened message list. -/
theorem buildPayload_messages (model : String) (req : LlmRequest) (payload : SNPayload)
    (hp : buildPayload model req = Except.ok payload) :
    payload.messages = buildMessages req.contents := by
  unfold buildPayload at hp
  cases hx : req.contents with
  | nil => rw [hx] at hp; exact absurd hp (by simp)
  | cons c cs =>
    rw [hx] at hp
    cases hats : buildApiTools req.tools with
    | none => rw [hats] at hp; simp at hp
    | some ats =>
      rw [hats] at hp
      cases ats with
      | nil =>
        simp only [Except.ok.injEq] at hp
        rw [← hp]
      | cons a rest =>
        simp only [Except.ok.injEq] at hp
        rw [← hp]

/-! ### Claims -/

/-- C1: for every request with a non-empty turn sequence, the flattened
message list has the same length as the turn sequence; the i-th message
carries the i-th turn's role and the in-order, separator-free
concatenation of that turn's text fragments; a turn with no (non-empty)
text fragments yields an empty-string content; and the payload the
vendor receives carries exactly this message list. -/
theorem c1_flattened_messages (contents : List Content) (h : contents ≠ []) :
    (buildMessages contents).length = contents.length ∧
    (∀ i (hi : i < contents.length),
      (buildMessages contents)[i]? =
        some (ChatMessage.mk (contents.get ⟨i, hi⟩).role
          (turnText (contents.get ⟨i, hi⟩).parts))) ∧
    (∀ i (hi : i < contents.length),
      (∀ p ∈ (contents.get ⟨i, hi⟩).parts, ∀ t, p.text = some t → t = "") →
      (buildMessages contents)[i]? =
        some (ChatMessage.mk (contents.get ⟨i, hi⟩).role "")) ∧
    (∀ (model : String) (tools : List Tool) (payload : SNPayload),
      buildPayload model (LlmRequest.mk contents tools) = Except.ok payload →
      payload.messages = buildMessages contents) := by
  refine ⟨by simp [buildMessages], ?_, ?_, ?_⟩
  · intro i hi
    simp [buildMessages, List.getElem?_map, List.getElem?_eq_getElem hi,
      contentText_eq_turnText, List.get_eq_getElem]
  · intro i hi hall
    simp [buildMessages, List.getElem?_map, List.getElem?_eq_getElem hi,
      contentText_eq_turnText, List.get_eq_getElem,
      turnText_of_all_empty _ (by simpa [List.get_eq_getElem] using hall)]
  · intro model tools payload hp
    exact buildPayload_messages model (LlmRequest.mk contents tools) payload hp

theorem c1_flattened_messages_witness :
    (buildMessages [Content.mk "user"
        [Part.mk (some "Hel") none, Part.mk none none,
         Part.mk (some "") none, Part.mk (some "lo") none]]).length = 1 ∧
    (buildMessages [Content.mk "user"
        [Part.mk (some "Hel") none, Part.mk none none,
         Part.mk (some "") none, Part.mk (some "lo") none]])[0]? =
      some (ChatMessage.mk "user" "Hello") := by
  have h := c1_flattened_messages [Content.mk "user"
    [Part.mk (some "Hel") none, Part.mk none none,
     Part.mk (some "") none, Part.mk (some "lo") none]] (by simp)
  refine ⟨h.1, ?_⟩
  rw [h.2.1 0 (by simp)]
  rfl

/-- C2: a request whose turn sequence is empty is rejected with the
`InvalidRequest`-style `ValueError` before any vendor call (no payload
is ever handed to the vendor, and the outcome does not depend on the
vendor at all), and no response is yielded. -/
theorem c2_empty_request_rejected (ε : Type) (model : String)
    (vendor vendor2 : SNPayload → Except ε Completion)
    (parse : String → Option ArgsMap) (req : LlmRequest)
    (h : req.contents = []) :
    (generate_content_async model vendor parse req).result =
      Except.error (GenError.build BuildError.invalidRequest) ∧
    (generate_content_async model vendor parse req).calls = [] ∧
    generate_content_async model vendor parse req =
      generate_content_async model vendor2 parse req := by
  have hb : buildPayload model req = Except.error BuildError.invalidRequest := by
    simp only [buildPayload, h]
  exact ⟨by simp [generate_content_async, hb], by simp [generate_content_async, hb],
    by simp [generate_content_async, hb]⟩

theorem c2_empty_request_rejected_witness :
    (generate_content_async "m"
      (fun _ => (Except.ok (Completion.mk none) : Except Unit Completion))
      (fun _ => none) (LlmRequest.mk [] [])).result =
      Except.error (GenError.build BuildError.invalidRequest) ∧
    (generate_content_async "m"
      (fun _ => (Except.ok (Completion.mk none) : Except Unit Completion))
      (fun _ => none) (LlmRequest.mk [] [])).calls = [] := by
  have h := c2_empty_request_rejected Unit "m"
    (fun _ => Except.ok (Completion.mk none)) (fun _ => Except.error ())
    (fun _ => none) (LlmRequest.mk [] []) rfl
  exact ⟨h.1, h.2.1⟩

/-- C3: each tool call's argument string is decoded before the part is
built; a decode failure on one tool call only logs that failure and
drops that single part — the surrounding parts are unchanged and the
overall response is still produced without raising. -/
theorem c3_malformed_tool_call_isolated (parse : String → Option ArgsMap)
    (tcs1 tcs2 : List SNToolCall) (bad : SNToolCall) (f : SNFunction)
    (hf : bad.function = some f)
    (hparse : parse (f.arguments.getD "\x7b\x7d") = none) :
    (toolCallsParts parse (tcs1 ++ bad :: tcs2)).1 =
      (toolCallsParts parse (tcs1 ++ tcs2)).1 ∧
    (toolCallsParts parse (tcs1 ++ bad :: tcs2)).2 =
      (toolCallsParts parse tcs1).2 ++
        LogEntry.toolCallParseError (f.arguments.getD "\x7b\x7d") ::
          (toolCallsParts parse tcs2).2 ∧
    (∀ (tc : SNToolCall) (g : SNFunction) (s : String) (args : ArgsMap),
      tc.function = some g → g.arguments = some s → parse s = some args →
      toolCallResult parse tc =
        (some (Part.fromFunctionCall (g.name.getD "") args), [])) ∧
    (∀ (ε : Type) (model : String) (req : LlmRequest) (completion : Completion),
      req.contents ≠ [] → (∀ t ∈ req.tools, t.function_declarations ≠ []) →
      ∃ resp : LlmResponse,
        (generate_content_async model
          (fun _ => (Except.ok completion : Except ε Completion)) parse req).result =
          Except.ok [resp]) := by
  have hbad : toolCallResult parse bad =
      (none, [LogEntry.toolCallParseError (f.arguments.getD "\x7b\x7d")]) := by
    unfold toolCallResult
    rw [hf]
    simp only [hparse]
  refine ⟨?_, ?_, ?_, ?_⟩
  · rw [toolCallsParts_append, toolCallsParts_append]
    show _ ++ (toolCallsParts parse (bad :: tcs2)).1 = _
    rw [toolCallsParts]
    simp [hbad]
  · rw [toolCallsParts_append]
    show _ ++ (toolCallsParts parse (bad :: tcs2)).2 = _
    rw [toolCallsParts]
    simp [hbad]
  · intro tc g s args hg hs hps
    unfold toolCallResult
    rw [hg]
    simp only [hs, Option.getD_some, hps]
  · intro ε model req completion h1 h2
    obtain ⟨payload, hp, -⟩ := buildPayload_ok model req h1 h2
    refine ⟨LlmResponse.mk (Content.mk "model" (completionParts parse completion).1) false, ?_⟩
    rw [generate_ok model _ parse req payload completion hp rfl]

theorem c3_malformed_tool_call_isolated_witness :
    (toolCallsParts (fun s => if s = "\x7b\x7d" then some [] else none)
        ([SNToolCall.mk (some (SNFunction.mk (some "get_weather") none))] ++
          SNToolCall.mk (some (SNFunction.mk (some "bad_tool") (some "\x7bbad"))) ::
            [])).1 =
      (toolCallsParts (fun s => if s = "\x7b\x7d" then some [] else none)
        ([SNToolCall.mk (some (SNFunction.mk (some "get_weather") none))] ++ [])).1 := by
  have h := c3_malformed_tool_call_isolated
    (fun s => if s = "\x7b\x7d" then some [] else none)
    [SNToolCall.mk (some (SNFunction.mk (some "get_weather") none))] []
    (SNToolCall.mk (some (SNFunction.mk (some "bad_tool") (some "\x7bbad"))))
    (SNFunction.mk (some "bad_tool") (some "\x7bbad")) rfl (by rfl)
  exact h.1

/-- C4: when the vendor call succeeds, exactly one vendor call is made
and exactly one response is yielded, tagged with role "model", not
partial, whose parts aggregate the parts of all choices. -/
theorem c4_single_call_single_response (ε : Type) (model : String)
    (parse : String → Option ArgsMap) (req : LlmRequest) (completion : Completion)
    (h1 : req.contents ≠ [])
    (h2 : ∀ t ∈ req.tools, t.function_declarations ≠ []) :
    (generate_content_async model
      (fun _ => (Except.ok completion : Except ε Completion)) parse req).calls.length = 1 ∧
    (generate_content_async model
      (fun _ => (Except.ok completion : Except ε Completion)) parse req).result =
      Except.ok [LlmResponse.mk
        (Content.mk "model" (completionParts parse completion).1) false] := by
  obtain ⟨payload, hp, -⟩ := buildPayload_ok model req h1 h2
  rw [generate_ok model _ parse req payload completion hp rfl]
  exact ⟨rfl, rfl⟩

theorem c4_single_call_single_response_witness :
    (generate_content_async "m"
      (fun _ => (Except.ok (Completion.mk (some [SNChoice.mk
        (some (SNMessage.mk (some "Hello") none))])) : Except Unit Completion))
      (fun _ => none)
      (LlmRequest.mk [Content.mk "user" [Part.mk (some "hi") none]] [])).result =
      Except.ok [LlmResponse.mk
        (Content.mk "model" [Part.fromText "Hello"]) false] := by
  have h := c4_single_call_single_response Unit "m" (fun _ => none)
    (LlmRequest.mk [Content.mk "user" [Part.mk (some "hi") none]] [])
    (Completion.mk (some [SNChoice.mk (some (SNMessage.mk (some "Hello") none))]))
    (by simp) (by simp)
  rw [h.2]
  rfl

/-- C5: the vendor payload carries the converted tool list together
with the fixed "auto" tool-choice flag exactly when at least one tool
was supplied; each supplied tool (assumed to have at least one declared
function) is converted to a `type="function"` entry taken from its
first declared function only. -/
theorem c5_payload_tools (model : String) (req : LlmRequest)
    (h1 : req.contents ≠ [])
    (h2 : ∀ t ∈ req.tools, t.function_declarations ≠ []) :
    ∃ payload, buildPayload model req = Except.ok payload ∧
      ((payload.tools.isSome ∧ payload.tool_choice = some "auto") ↔ req.tools ≠ []) ∧
      (req.tools = [] → payload.tools = none ∧ payload.tool_choice = none) ∧
      (∀ ats, payload.tools = some ats →
        ats.length = req.tools.length ∧
        ∀ i (hi : i < req.tools.length), ∃ d ds,
          (req.tools.get ⟨i, hi⟩).function_declarations = d :: ds ∧
          ats[i]? = some (ApiTool.mk "function"
            (ApiFunctionSpec.mk d.name d.description d.parameters))) := by
  obtain ⟨payload, hp, hmodel, hmsgs, hempty, hne⟩ := buildPayload_ok model req h1 h2
  refine ⟨payload, hp, ?_, hempty, ?_⟩
  · constructor
    · rintro ⟨hsome, -⟩ hnil
      rw [(hempty hnil).1] at hsome
      simp at hsome
    · intro hnil
      obtain ⟨hchoice, ats, hats, -⟩ := hne hnil
      exact ⟨by simp [hats], hchoice⟩
  · intro ats hats
    by_cases hnil : req.tools = []
    · rw [(hempty hnil).1] at hats
      simp at hats
    · obtain ⟨-, ats2, hats2, hlen2, hget2⟩ := hne hnil
      rw [hats2] at hats
      obtain rfl : ats2 = ats := Option.some.inj hats
      exact ⟨hlen2, hget2⟩

theorem c5_payload_tools_witness :
    ∃ payload, buildPayload "m"
      (LlmRequest.mk [Content.mk "user" [Part.mk (some "hi") none]]
        [Tool.mk [FunctionDeclaration.mk "get_weather" "weather lookup"
          (JsonVal.obj [("city", JsonVal.str "string")])]]) = Except.ok payload ∧
      payload.tool_choice = some "auto" ∧
      payload.tools = some [ApiTool.mk "function"
        (ApiFunctionSpec.mk "get_weather" "weather lookup"
          (JsonVal.obj [("city", JsonVal.str "string")]))] := by
  have h := c5_payload_tools "m"
    (LlmRequest.mk [Content.mk "user" [Part.mk (some "hi") none]]
      [Tool.mk [FunctionDeclaration.mk "get_weather" "weather lookup"
        (JsonVal.obj [("city", JsonVal.str "string")])]])
    (by simp) (by simp)
  obtain ⟨payload, hp, hiff, -, hshape⟩ := h
  refine ⟨payload, hp, ?_, ?_⟩
  · exact (hiff.mpr (by simp)).2
  · have hsome := (hiff.mpr (by simp)).1
    obtain ⟨ats, hats⟩ := Option.isSome_iff_exists.mp hsome
    obtain ⟨hlen, hget⟩ := hshape ats hats
    rw [hats]
    cases ats with
    | nil => simp at hlen
    | cons a rest =>
      cases rest with
      | nil =>
        obtain ⟨d, ds, hd, ha⟩ := hget 0 (by simp)
        simp only [List.get] at hd
        simp only [List.getElem?_cons_zero, Option.some.injEq] at ha
        obtain ⟨rfl, rfl⟩ : d = FunctionDeclaration.mk "get_weather" "weather lookup"
            (JsonVal.obj [("city", JsonVal.str "string")]) ∧ ds = [] := by
          cases hd
          exact ⟨rfl, rfl⟩
        rw [ha]
      | cons b rest2 => simp at hlen

/-- C6: a vendor-call failure is logged and re-raised to the caller
unmodified, after exactly one vendor call and with no response
yielded. -/
theorem c6_vendor_failure_propagates (ε : Type) (model : String)
    (parse : String → Option ArgsMap) (req : LlmRequest) (e : ε)
    (h1 : req.contents ≠ [])
    (h2 : ∀ t ∈ req.tools, t.function_declarations ≠ []) :
    (generate_content_async model
      (fun _ => (Except.error e : Except ε Completion)) parse req).result =
      Except.error (GenError.vendor e) ∧
    (generate_content_async model
      (fun _ => (Except.error e : Except ε Completion)) parse req).calls.length = 1 ∧
    (generate_content_async model
      (fun _ => (Except.error e : Except ε Completion)) parse req).log =
      [LogEntry.vendorCallFailed] := by
  obtain ⟨payload, hp, -⟩ := buildPayload_ok model req h1 h2
  rw [generate_vendor_err model _ parse req payload e hp rfl]
  exact ⟨rfl, rfl, rfl⟩

theorem c6_vendor_failure_propagates_witness :
    (generate_content_async "m"
      (fun _ => (Except.error "boom" : Except String Completion))
      (fun _ => none)
      (LlmRequest.mk [Content.mk "user" [Part.mk (some "hi") none]] [])).result =
      Except.error (GenError.vendor "boom") ∧
    (generate_content_async "m"
      (fun _ => (Except.error "boom" : Except String Completion))
      (fun _ => none)
      (LlmRequest.mk [Content.mk "user" [Part.mk (some "hi") none]] [])).log =
      [LogEntry.vendorCallFailed] := by
  have h := c6_vendor_failure_propagates String "m" (fun _ => none)
    (LlmRequest.mk [Content.mk "user" [Part.mk (some "hi") none]] []) "boom"
    (by simp) (by simp)
  exact ⟨h.1, h.2.2⟩

theorem toolCallsParts_filter_text (parse : String → Option ArgsMap)
    (tcs : List SNToolCall) :
    (toolCallsParts parse tcs).1.filter (fun p => p.text.isSome) = [] := by
  rw [List.filter_eq_nil_iff]
  intro p hp
  simp [toolCallsParts_text_none parse tcs p hp]

/-- C7: a text part is emitted for a choice exactly when the choice's
message has non-empty text content (carrying exactly that content), and
absent or empty fields — no choices, no message, no or empty tool-call
list — contribute no parts and cause no error. -/
theorem c7_text_part_iff (parse : String → Option ArgsMap) :
    (∀ msg : SNMessage,
      (choiceParts parse (SNChoice.mk (some msg))).1.filter (fun p => p.text.isSome) =
        (match msg.content with
         | some t => if t = "" then [] else [Part.fromText t]
         | none => [])) ∧
    choiceParts parse (SNChoice.mk none) = ([], []) ∧
    completionParts parse (Completion.mk none) = ([], []) ∧
    (∀ msg : SNMessage, msg.tool_calls = none ∨ msg.tool_calls = some [] →
      (choiceParts parse (SNChoice.mk (some msg))).1 =
        (match msg.content with
         | some t => if t = "" then [] else [Part.fromText t]
         | none => [])) := by
  refine ⟨?_, rfl, rfl, ?_⟩
  · intro msg
    show (_ ++ (toolCallsParts parse (msg.tool_calls.getD [])).1).filter _ = _
    rw [List.filter_append, toolCallsParts_filter_text]
    cases hc : msg.content with
    | none => simp
    | some t =>
      by_cases ht : t = ""
      · simp [ht]
      · simp [ht, Part.fromText]
  · intro msg hmsg
    show _ ++ (toolCallsParts parse (msg.tool_calls.getD [])).1 = _
    rcases hmsg with hmsg | hmsg
    · rw [hmsg]
      simp [toolCallsParts]
    · rw [hmsg]
      simp [toolCallsParts]

theorem c7_text_part_iff_witness :
    (choiceParts (fun _ => none)
      (SNChoice.mk (some (SNMessage.mk (some "Hello") none)))).1 =
      [Part.fromText "Hello"] := by
  have h := (c7_text_part_iff (fun _ => none)).2.2.2
    (SNMessage.mk (some "Hello") none) (Or.inl rfl)
  rw [h]
  rfl

/-- C8: parts preserve order — choices are processed in order, within a
choice the text part (when present) precedes all function-call parts,
and function-call parts follow the order of the vendor's tool-call
entries. -/
theorem c8_parts_order (parse : String → Option ArgsMap) :
    (∀ chs1 chs2 : List SNChoice,
      (completionParts parse (Completion.mk (some (chs1 ++ chs2)))).1 =
        (completionParts parse (Completion.mk (some chs1))).1 ++
        (completionParts parse (Completion.mk (some chs2))).1) ∧
    (∀ msg : SNMessage,
      (choiceParts parse (SNChoice.mk (some msg))).1 =
        (match msg.content with
         | some t => if t = "" then [] else [Part.fromText t]
         | none => []) ++ (toolCallsParts parse (msg.tool_calls.getD [])).1) ∧
    (∀ tcs1 tcs2 : List SNToolCall,
      (toolCallsParts parse (tcs1 ++ tcs2)).1 =
        (toolCallsParts parse tcs1).1 ++ (toolCallsParts parse tcs2).1) ∧
    (∀ (tc : SNToolCall) (tcs : List SNToolCall),
      (toolCallsParts parse (tc :: tcs)).1 =
        (toolCallResult parse tc).1.toList ++ (toolCallsParts parse tcs).1) := by
  refine ⟨?_, fun msg => rfl, ?_, fun tc tcs => rfl⟩
  · intro chs1 chs2
    simp [completionParts]
  · intro tcs1 tcs2
    rw [toolCallsParts_append]

/-- C9: the coroutine mutates neither its request nor the adapter's
configuration: after any invocation (success or failure) the request
and the model identifier are unchanged. -/
theorem c9_request_not_mutated (ε : Type) (model : String)
    (vendor : SNPayload → Except ε Completion) (parse : String → Option ArgsMap)
    (req : LlmRequest) :
    (generate_content_async model vendor parse req).finalRequest = req ∧
    (generate_content_async model vendor parse req).finalModel = model := by
  rcases hb : buildPayload model req with e | payload
  · simp [generate_content_async, hb]
  · rcases hv : vendor payload with e | completion <;>
      simp [generate_content_async, hb, hv]

/-- C10: a tool-call entry whose function lacks an `arguments` field
still yields a function-call part with the empty argument mapping (the
missing field defaults to the string `"{}"`, which decodes to the empty
mapping); the entry is neither dropped nor does it raise. -/
theorem c10_missing_arguments_default (parse : String → Option ArgsMap)
    (hparse : parse "\x7b\x7d" = some [])
    (tc : SNToolCall) (f : SNFunction) (n : String)
    (hf : tc.function = some f) (hargs : f.arguments = none)
    (hname : f.name = some n) :
    toolCallResult parse tc = (some (Part.fromFunctionCall n []), []) ∧
    (∀ tcs1 tcs2 : List SNToolCall,
      (toolCallsParts parse (tcs1 ++ tc :: tcs2)).1 =
        (toolCallsParts parse tcs1).1 ++
          Part.fromFunctionCall n [] :: (toolCallsParts parse tcs2).1) := by
  have h1 : toolCallResult parse tc = (some (Part.fromFunctionCall n []), []) := by
    unfold toolCallResult
    rw [hf]
    simp only [hargs, hname, hparse, Option.getD_none, Option.getD_some]
  refine ⟨h1, ?_⟩
  intro tcs1 tcs2
  rw [toolCallsParts_append]
  show _ ++ (toolCallsParts parse (tc :: tcs2)).1 = _
  rw [toolCallsParts]
  simp [h1]

theorem c10_missing_arguments_default_witness :
    toolCallResult (fun s => if s = "\x7b\x7d" then some [] else none)
      (SNToolCall.mk (some (SNFunction.mk (some "get_weather") none))) =
      (some (Part.fromFunctionCall "get_weather" []), []) := by
  exact (c10_missing_arguments_default
    (fun s => if s = "\x7b\x7d" then some [] else none) (by rfl)
    (SNToolCall.mk (some (SNFunction.mk (some "get_weather") none)))
    (SNFunction.mk (some "get_weather") none) "get_weather" rfl rfl rfl).1

end Adapter
